import Mathlib

/-!
# Verification of the local_scraper crawl-and-ingest workflow

Shallow embedding of the core logic of the `local_scraper` repository:

* `src/local_scraper/time_utils.py` — `normalize_date`
* `src/local_scraper/workflow.py` — `_collect_list_items`,
  `_zcpt_should_stop_page`, the raw-item dedup pass, and `run_once`
  (filter stage and ingest loop, with external collaborators — HTTP,
  parsers, AI, store — abstracted as oracles)
* `src/local_scraper/http_client.py` — `HttpClient.get_text` dispatch
* `src/local_scraper/db.py` — `Database.update_announcement_detail`

Python strings are modelled as `String`/`List Char`, Python `int` as `Int`
(counters) or `Nat` (sizes), `datetime.date` as a year/month/day record
compared through a decimal key (Python dates are always valid calendar
dates, on which chronological order coincides with the key order), and
fallible calls as `Except Unit`/`Option`.
-/

namespace LocalScraper

/-! ## Calendar dates (`datetime.date`, restricted to what the code uses) -/

structure CivilDate where
  year : Nat
  month : Nat
  day : Nat
deriving DecidableEq, Repr

/-- Decimal key under which chronological order of valid dates is the
natural order (`month ≤ 12`, `day ≤ 31`). -/
def CivilDate.key (d : CivilDate) : Nat :=
  d.year * 10000 + d.month * 100 + d.day

/-- Python `date.__lt__` on valid dates. -/
def CivilDate.ltb (a b : CivilDate) : Bool :=
  decide (a.key < b.key)

def isLeapYear (y : Nat) : Bool :=
  y % 4 = 0 && (y % 100 ≠ 0 || y % 400 = 0)

def daysInMonth (y m : Nat) : Nat :=
  if m = 2 then (if isLeapYear y then 29 else 28)
  else if m = 4 || m = 6 || m = 9 || m = 11 then 30
  else 31

/-- The calendar day before `d` (used to model `date - timedelta(days=1)`). -/
def CivilDate.pred (d : CivilDate) : CivilDate :=
  if 1 < d.day then ⟨d.year, d.month, d.day - 1⟩
  else if 1 < d.month then ⟨d.year, d.month - 1, daysInMonth d.year (d.month - 1)⟩
  else ⟨d.year - 1, 12, 31⟩

/-- `d - timedelta(days=n)`. -/
def CivilDate.subDays (d : CivilDate) : Nat → CivilDate
  | 0 => d
  | n + 1 => (d.subDays n).pred

/-- Left-pad a decimal rendering to `width` digits (Python `%04d`-style). -/
def padNum (width n : Nat) : String :=
  let s := toString n
  if s.length < width then String.mk (List.replicate (width - s.length) '0') ++ s
  else s

/-- Python `date.isoformat()`. -/
def CivilDate.iso (d : CivilDate) : String :=
  padNum 4 d.year ++ "-" ++ padNum 2 d.month ++ "-" ++ padNum 2 d.day

def digitVal (c : Char) : Nat := c.toNat - '0'.toNat

/-- Python `date.fromisoformat` on the canonical dashed `YYYY-MM-DD` form
(the only form the scraped pages and parsers produce), validating the
calendar; any other input raises, modelled as `none`. -/
def parseIsoDate (s : String) : Option CivilDate :=
  match s.toList with
  | [y1, y2, y3, y4, '-', m1, m2, '-', d1, d2] =>
    if [y1, y2, y3, y4, m1, m2, d1, d2].all Char.isDigit then
      let y := ((digitVal y1 * 10 + digitVal y2) * 10 + digitVal y3) * 10 + digitVal y4
      let m := digitVal m1 * 10 + digitVal m2
      let d := digitVal d1 * 10 + digitVal d2
      if 1 ≤ y ∧ 1 ≤ m ∧ m ≤ 12 ∧ 1 ≤ d ∧ d ≤ daysInMonth y m then
        some ⟨y, m, d⟩
      else none
    else none
  | _ => none

/-- First-max of a nonempty list of dates (Python `max`). -/
def dateMaxD (d : CivilDate) (ds : List CivilDate) : CivilDate :=
  ds.foldl (fun a b => if a.key < b.key then b else a) d

/-- First-min of a nonempty list of dates (Python `min`). -/
def dateMinD (d : CivilDate) (ds : List CivilDate) : CivilDate :=
  ds.foldl (fun a b => if b.key < a.key then b else a) d

/-! ## `time_utils.normalize_date` -/

/-- Python `str.strip` on a character list. -/
def stripChars (l : List Char) : List Char :=
  ((l.dropWhile Char.isWhitespace).reverse.dropWhile Char.isWhitespace).reverse

/-- `s.replace("[", "").replace("]", "")`. -/
def dropBrackets (l : List Char) : List Char :=
  l.filter fun c => !(c = '[' || c = ']')

/-- Regex shape `^(\d{4})-(\d{2})-(\d{2})$`. -/
def shapeYMD : List Char → Bool
  | [y1, y2, y3, y4, '-', m1, m2, '-', d1, d2] =>
    [y1, y2, y3, y4, m1, m2, d1, d2].all Char.isDigit
  | _ => false

/-- Regex shape `^(\d{4})/(\d{2})/(\d{2})$`. -/
def shapeSlash : List Char → Bool
  | [y1, y2, y3, y4, '/', m1, m2, '/', d1, d2] =>
    [y1, y2, y3, y4, m1, m2, d1, d2].all Char.isDigit
  | _ => false

/-- Regex shape `^(\d{2})-(\d{2})$`. -/
def shapeMMDD : List Char → Bool
  | [m1, m2, '-', d1, d2] => [m1, m2, d1, d2].all Char.isDigit
  | _ => false

/-- Re-delimit `YYYY/MM/DD` to `YYYY-MM-DD`. -/
def reDelim (l : List Char) : List Char :=
  l.map fun c => if c = '/' then '-' else c

/-- The cleaned string `normalize_date` actually dispatches on:
`date_str.strip().replace("[", "").replace("]", "").strip()`. -/
def cleanDateChars (l : List Char) : List Char :=
  stripChars (dropBrackets (stripChars l))

/-- `time_utils.normalize_date`, at character-list level. The three regex
alternatives match pairwise disjoint shapes, so the sequential `re.match`
attempts are an if-chain. -/
def normalizeDateChars (l : List Char) (nowYear : Nat) : Option (List Char) :=
  let s := cleanDateChars l
  if s = [] then none
  else if shapeYMD s then some s
  else if shapeSlash s then some (reDelim s)
  else if shapeMMDD s then some ((padNum 4 nowYear).toList ++ '-' :: s)
  else none

/-- `time_utils.normalize_date` (the `now` argument only contributes its
year). -/
def normalize_date (dateStr : String) (nowYear : Nat) : Option String :=
  (normalizeDateChars dateStr.toList nowYear).map String.mk

/-! ## `re.search` of a compiled keyword pattern

A compiled regex is abstracted by its language `L` (exact-match predicate);
`re.search` succeeds iff the pattern matches starting at some position,
i.e. iff some contiguous substring is in `L`. -/

def reSearch (L : String → Bool) (s : String) : Bool :=
  let cs := s.toList
  (List.range (cs.length + 1)).any fun i =>
    (List.range (cs.length - i + 1)).any fun n =>
      L (String.mk ((cs.drop i).take n))

/-! ## First-seen dedup of raw items (workflow.py lines 170-178) -/

/-- The dedup loop: `out`/`seen` accumulators, keep first occurrence. -/
def dedupFirstAux [DecidableEq α] : List α → List α × List α → List α × List α
  | [], st => st
  | x :: xs, (out, seen) =>
    if x ∈ seen then dedupFirstAux xs (out, seen)
    else dedupFirstAux xs (out ++ [x], seen ++ [x])

def dedupFirst [DecidableEq α] (l : List α) : List α :=
  (dedupFirstAux l ([], [])).1

/-- Specification-side dedup: the input with every later exact duplicate
removed (keep the first occurrence of each element). -/
def firstSeenDedup [DecidableEq α] : List α → List α
  | [] => []
  | x :: xs => x :: firstSeenDedup (xs.filter fun y => y ≠ x)
termination_by l => l.length
decreasing_by
  simp only [List.length_cons]
  exact Nat.lt_succ_of_le (List.length_filter_le _ _)

/-! ## The crawl collector (`workflow._collect_list_items`)

A fetched page is abstracted by the structured output of the (external,
pure) parsers on its HTML: the three list-item parser variants,
`parse_category_links`, `parse_next_page_url` and `_zcpt_next_page_url`
(the last two already composed with the current URL, which in a fixed
site determines the served HTML). A site maps URLs to pages; `none`
models `http.get_text` raising after its retries. -/

/-- A raw list item `(title, link, date_raw)`. -/
abbrev RawItem := String × String × String

def RawItem.title (it : RawItem) : String := it.1
def RawItem.dateRaw (it : RawItem) : String := it.2.2

structure Page where
  legacyItems : List RawItem
  noticeItems : List RawItem
  zcptItems : List RawItem
  categoryLinks : List String
  anchorNext : Option String
  zcptNext : Option String

abbrev Site := String → Option Page

/-- Union of the three parser variants, in append order (lines 111-119). -/
def pageItems (p : Page) : List RawItem :=
  p.legacyItems ++ p.noticeItems ++ p.zcptItems

/-- `workflow._zcpt_should_stop_page`: stop only when ALL parseable dates
on the page are older than `earliest_keep`; unparseable dates are
skipped, and a page with no parseable dates never stops. -/
def zcpt_should_stop_page (zcptItems : List RawItem) (earliestKeep : CivilDate) :
    Bool × Option String :=
  let dates := zcptItems.filterMap fun it => parseIsoDate it.dateRaw
  match dates with
  | [] => (false, none)
  | d :: ds =>
    let maxD := dateMaxD d ds
    (maxD.ltb earliestKeep, some maxD.iso)

/-- Stop rule of the `elif notices:` branch (lines 136-148): the whole
`min` computation is inside one `try`, so a single unparseable date (or
an empty list) swallows the check and does not stop. -/
def noticeShouldStop (notices : List RawItem) (earliestKeep : CivilDate) : Bool :=
  match notices.mapM (fun it => parseIsoDate it.dateRaw) with
  | none => false
  | some [] => false
  | some (d :: ds) => (dateMinD d ds).ltb earliestKeep

/-- The shape-dependent page cutoff (lines 121-148): zcpt shape takes
precedence, then the notice shape, else no stop. -/
def pageStopDecision (p : Page) (earliestKeep : CivilDate) : Bool :=
  if !p.zcptItems.isEmpty then (zcpt_should_stop_page p.zcptItems earliestKeep).1
  else if !p.noticeItems.isEmpty then noticeShouldStop p.noticeItems earliestKeep
  else false

structure CrawlState where
  seen : List String
  raw : List RawItem
  pageTurns : Nat
  fetchCount : Nat

/-- The pagination walk within one category branch (the `for page_idx in
range(1, max_pages_per_category + 1)` loop); `remaining` counts the
page-indices left. Every `http.get_text` call (including a failing one)
bumps `fetchCount`. -/
def walkBranch (site : Site) (earliestKeep : CivilDate) :
    Nat → String → CrawlState → CrawlState
  | 0, _, st => st
  | rem + 1, pageUrl, st =>
    match site pageUrl with
    | none => { st with fetchCount := st.fetchCount + 1 }
    | some p =>
      let st1 : CrawlState :=
        { st with
            fetchCount := st.fetchCount + 1
            raw := st.raw ++ pageItems p }
      if pageStopDecision p earliestKeep then st1
      else
        match (match p.anchorNext with | some u => some u | none => p.zcptNext) with
        | none => st1
        | some nextUrl =>
          if nextUrl ∈ st1.seen then st1
          else
            walkBranch site earliestKeep rem nextUrl
              { st1 with
                  seen := st1.seen ++ [nextUrl]
                  pageTurns := st1.pageTurns + 1 }

/-- The outer `while queue and len(seen_pages) < max_pages_total` loop.
`fuel` bounds the number of queue pops (the Python loop terminates since
each processed branch grows `seen_pages` under the budget check and the
queue is finite; all stated properties hold for every fuel). After a
branch, the branch root is re-fetched once to discover deeper category
links (lines 161-168; a failure there is swallowed). -/
def collectLoop (site : Site) (earliestKeep : CivilDate) (maxTotal maxPerCat : Nat) :
    Nat → List String → CrawlState → CrawlState
  | 0, _, st => st
  | _ + 1, [], st => st
  | fuel + 1, url :: rest, st =>
    if st.seen.length < maxTotal then
      if url ∈ st.seen then
        collectLoop site earliestKeep maxTotal maxPerCat fuel rest st
      else
        let st1 : CrawlState := { st with seen := st.seen ++ [url] }
        let st2 := walkBranch site earliestKeep maxPerCat url st1
        let st3 : CrawlState := { st2 with fetchCount := st2.fetchCount + 1 }
        let nextQueue :=
          match site url with
          | none => rest
          | some rootP =>
            rest ++ rootP.categoryLinks.filter fun u => u ∉ st2.seen
        collectLoop site earliestKeep maxTotal maxPerCat fuel nextQueue st3
    else st

structure CrawlConfig where
  listUrl : String
  maxPagesTotal : Nat
  maxPagesPerCategory : Nat

structure CollectResult where
  items : List RawItem
  raw : List RawItem
  pagesSeen : Nat
  pageTurns : Nat
  fetchCount : Nat
deriving DecidableEq, Repr

/-- `workflow._collect_list_items` on the live-site path (the
`use_test_fixtures` branch is handled in `run_once` below). `none`
models the initial `http.get_text(cfg.list_url)` raising. -/
def collect_list_items (site : Site) (cfg : CrawlConfig) (earliestKeep : CivilDate)
    (fuel : Nat) : Option CollectResult :=
  match site cfg.listUrl with
  | none => none
  | some startP =>
    let st0 : CrawlState :=
      { seen := [cfg.listUrl], raw := pageItems startP, pageTurns := 0, fetchCount := 1 }
    let stF :=
      collectLoop site earliestKeep (max 1 cfg.maxPagesTotal)
        (max 1 cfg.maxPagesPerCategory) fuel startP.categoryLinks st0
    some
      { items := dedupFirst stF.raw
        raw := stF.raw
        pagesSeen := stF.seen.length
        pageTurns := stF.pageTurns
        fetchCount := stF.fetchCount }

/-! ## `workflow.run_once`

The filter stage is embedded directly; the ingest loop's external calls
(store, detail fetch + extraction, summarizer, notifier) are abstracted
by a per-candidate oracle giving each call's outcome, `.error` meaning
the call raised. The throttling arithmetic and `time.sleep` have no
observable effect on counters, rows or control flow and are omitted. -/

def sentinelSummary : String := "AI 总结失败"

/-- Store writes observable in a run (timestamps omitted). -/
inductive DbOp where
  | insertBase (title url date status : String)
  | updateDetail (title content aiSummary status : String)
deriving DecidableEq, Repr

structure LoopState where
  totalProcessed : Int
  totalNew : Int
  totalDuplicate : Int
  itemErrors : List String
  trace : List DbOp
deriving DecidableEq, Repr

def zeroState : LoopState :=
  { totalProcessed := 0, totalNew := 0, totalDuplicate := 0, itemErrors := [], trace := [] }

/-- Outcomes of the external calls made while processing one candidate;
`.error` models the call raising. -/
structure ItemOracle where
  isDup : Except Unit Bool
  insertOk : Except Unit Bool
  fetchExtract : Except Unit String
  aiOutcome : Except Unit String
  processedUpdateOk : Except Unit Unit
  feishuOk : Bool
  failedUpdateOk : Except Unit Unit

structure RunConfig where
  dryRun : Bool
  aiDisabled : Bool
  useTestFixtures : Bool
  feishuConfigured : Bool
  feishuPerItem : Bool
  daysLookback : Int
  maxItemsPerRun : Int
  keywordLang : String → Bool
  crawl : CrawlConfig

structure RunEnv where
  site : Site
  fuel : Nat
  fixtureItems : List RawItem
  fixtureDetailContent : String
  recentToday : CivilDate
  oracles : Nat → ItemOracle
  fallbackSummary : String → String → String
  resolveLink : String → String

/-- Lexicographic string maximum (Python `max` over `str`). -/
def strMax (s : String) (ss : List String) : String :=
  ss.foldl (fun a b => if a < b then b else a) s

/-- Lines 356-361: normalize dates, dropping items whose raw date has no
recognized shape. -/
def normalizeStage (items : List RawItem) (nowYear : Nat) : List RawItem :=
  items.filterMap fun it => (normalize_date it.dateRaw nowYear).map fun d => (it.1, it.2.1, d)

/-- Lines 373-374: the allowed-date window, as the ISO strings of the
`lookbackN` consecutive days ending at `base`. -/
def allowedDates (base : CivilDate) (lookbackN : Nat) : List String :=
  (List.range lookbackN).map fun i => (base.subDays i).iso

/-- Lines 384-390: keep items whose canonical date is in the window and
whose title the keyword regex search accepts, in input order. -/
def candidateFilter (normalized : List RawItem) (allowed : List String)
    (kw : String → Bool) : List RawItem :=
  normalized.filter fun it => decide (it.dateRaw ∈ allowed) && kw it.title

/-- The `except` handler of the per-item `try` (lines 507-516): record the
error, then mark the row FAILED with empty content and the sentinel
summary — that update itself raising escapes the handler. -/
def failItem (orc : ItemOracle) (title : String) (st : LoopState) :
    Except LoopState LoopState :=
  let st1 : LoopState := { st with itemErrors := st.itemErrors ++ ["item_failed: " ++ title] }
  match orc.failedUpdateOk with
  | .error _ => .error st1
  | .ok _ =>
    .ok { st1 with trace := st1.trace ++ [DbOp.updateDetail title "" sentinelSummary "FAILED"] }

/-- One iteration of the ingest loop body (lines 424-530). `.error`
carries the state at the moment an exception escaped the iteration. -/
def stepItem (cfg : RunConfig) (env : RunEnv) (orc : ItemOracle) (item : RawItem)
    (st : LoopState) : Except LoopState LoopState :=
  let title := item.1
  let link := item.2.1
  let d := item.2.2
  let absUrl := if link.startsWith "http" then link else env.resolveLink link
  match orc.isDup with
  | .error _ => .error st
  | .ok true =>
    .ok { st with
            totalDuplicate := st.totalDuplicate + 1
            totalProcessed := st.totalProcessed + 1 }
  | .ok false =>
    let st1 : LoopState :=
      { st with totalNew := st.totalNew + 1, totalProcessed := st.totalProcessed + 1 }
    if cfg.dryRun then .ok st1
    else
      match orc.insertOk with
      | .error _ => .error st1
      | .ok false =>
        .ok { st1 with totalDuplicate := st1.totalDuplicate + 1, totalNew := st1.totalNew - 1 }
      | .ok true =>
        let st2 : LoopState :=
          { st1 with trace := st1.trace ++ [DbOp.insertBase title absUrl d "NEW"] }
        match (if cfg.useTestFixtures then Except.ok env.fixtureDetailContent
               else orc.fetchExtract) with
        | .error _ => failItem orc title st2
        | .ok content =>
          let summaryRes : Except Unit String :=
            if content = "" then .ok sentinelSummary
            else if cfg.dryRun || cfg.aiDisabled then .ok (env.fallbackSummary title content)
            else
              match orc.aiOutcome with
              | .error e => .error e
              | .ok s =>
                .ok (if s = "" || s = sentinelSummary then env.fallbackSummary title content
                     else s)
          match summaryRes with
          | .error _ => failItem orc title st2
          | .ok aiSummary =>
            match orc.processedUpdateOk with
            | .error _ => failItem orc title st2
            | .ok _ =>
              let st3 : LoopState :=
                { st2 with
                    trace := st2.trace ++ [DbOp.updateDetail title content aiSummary "PROCESSED"] }
              if cfg.feishuConfigured && cfg.feishuPerItem && !orc.feishuOk then
                .ok { st3 with itemErrors := st3.itemErrors ++ ["feishu_send_failed: " ++ title] }
              else .ok st3

/-- The `max_items` cap check (lines 406-408 and 419): a negative
`max_items_per_run` is clamped to 0, and 0 disables the cap. -/
def capReached (maxItemsPerRun : Int) (idx : Nat) : Bool :=
  let maxItems := if maxItemsPerRun < 0 then 0 else maxItemsPerRun
  decide (maxItems ≠ 0 ∧ (idx : Int) ≥ maxItems)

/-- The ingest loop over the filtered candidates (lines 418-530); the cap
is checked before each item. -/
def ingestLoop (cfg : RunConfig) (env : RunEnv) :
    List RawItem → Nat → LoopState → Except LoopState LoopState
  | [], _, st => .ok st
  | item :: rest, idx, st =>
    if capReached cfg.maxItemsPerRun idx then .ok st
    else
      match stepItem cfg env (env.oracles idx) item st with
      | .error st1 => .error st1
      | .ok st1 => ingestLoop cfg env rest (idx + 1) st1

/-- Counters as written to the Run row by `finish_run` and as returned in
the report dict (both carry the same three totals and status). -/
structure RunCounts where
  status : String
  totalProcessed : Int
  totalNew : Int
  totalDuplicate : Int
deriving DecidableEq, Repr

structure RunResult where
  report : RunCounts
  finish : RunCounts
  itemErrors : List String
  trace : List DbOp
deriving DecidableEq, Repr

/-- Every exit of `run_once` finalizes once: `db.finish_run` and the
returned report receive the same status and counters (lines 332-351,
535-544 with 594-602, and 613-622 with 628-637). -/
def finalizeRun (status : String) (st : LoopState) : RunResult :=
  { report := ⟨status, st.totalProcessed, st.totalNew, st.totalDuplicate⟩
    finish := ⟨status, st.totalProcessed, st.totalNew, st.totalDuplicate⟩
    itemErrors := st.itemErrors
    trace := st.trace }

/-- `workflow.run_once`. The outer `try` turns any escaping exception into
the FAILED finalization with the counters at the moment of the raise. -/
def run_once (cfg : RunConfig) (env : RunEnv) : RunResult :=
  let earliestKeep := env.recentToday.subDays (max (cfg.daysLookback - 1) 0).toNat
  let collected : Option CollectResult :=
    if cfg.useTestFixtures then
      some { items := env.fixtureItems, raw := env.fixtureItems,
             pagesSeen := 1, pageTurns := 0, fetchCount := 0 }
    else collect_list_items env.site cfg.crawl earliestKeep env.fuel
  match collected with
  | none => finalizeRun "FAILED" zeroState
  | some col =>
    if col.items.isEmpty then finalizeRun "COMPLETED" zeroState
    else
      let normalized := normalizeStage col.items env.recentToday.year
      let baseOpt : Option CivilDate :=
        if cfg.useTestFixtures && !normalized.isEmpty then
          match normalized with
          | [] => none
          | it :: rest => parseIsoDate (strMax it.dateRaw (rest.map RawItem.dateRaw))
        else some env.recentToday
      match baseOpt with
      | none => finalizeRun "FAILED" zeroState
      | some baseDate =>
        let lookbackN := (if cfg.daysLookback < 1 then 1 else cfg.daysLookback).toNat
        let allowed := allowedDates baseDate lookbackN
        let filtered := candidateFilter normalized allowed (reSearch cfg.keywordLang)
        match ingestLoop cfg env filtered 0 zeroState with
        | .error st => finalizeRun "FAILED" st
        | .ok st => finalizeRun "COMPLETED" st

/-! ## `http_client.HttpClient` (as present under `src/`)

`HttpConfig` in `src/local_scraper/http_client.py` has exactly four
fields and `get_text` issues a plain `session.get(url)` on every attempt
for every URL — it has no relay fields and no relay dispatch. (The
repository's own test `tests/test_http_relay.py` and the caller
`workflow.run_once`, which passes `relay_zcpt_base_url` /
`relay_zcpt_token` to `HttpConfig`, both expect a relay-enabled client.) -/

structure HttpConfig where
  userAgent : String
  timeoutMs : Int
  retryCount : Int
  retryIntervalMs : Int
deriving DecidableEq, Repr

/-- The outbound request a `get_text` attempt issues. -/
inductive HttpRequest where
  | get (url : String)
  | post (url : String) (bearerToken : String) (path : String) (query : String)
deriving DecidableEq, Repr

/-- The request issued by `HttpClient.get_text` as written under `src/`:
always a direct GET of the URL, whatever the configuration. -/
def get_text_request (cfg : HttpConfig) (url : String) : HttpRequest :=
  HttpRequest.get url

/-- Modelled from the spec: the repository's relay contract, missing from
`src/local_scraper/http_client.py` but asserted by its own test
`test_http_client_uses_zcpt_relay_when_configured` — a `get_text` of a
URL on the designated zcpt origin, with relay base
`https://cn-relay.example.com` and token `tok` configured, must POST the
URL's path and query to the relay fetch endpoint with a bearer
credential. -/
def relayExpectedRequest : HttpRequest :=
  HttpRequest.post "https://cn-relay.example.com/relay/zcpt/fetch" "tok"
    "/jyxx/sec_listjyxx.html" "pageIndex=2"

/-- The URL the relay test fetches. -/
def zcptTestUrl : String :=
  "https://zcpt.zgpmsm.com.cn/jyxx/sec_listjyxx.html?pageIndex=2"

/-! ## `db.Database.update_announcement_detail`

The announcements table is a row list; the SQL is
`UPDATE announcements SET content=?, ai_summary=?, status=?, updated_at=?
WHERE title=?` — selection is by title alone, and the method never
consults `self._dedupe_strategy`. -/

structure AnnRow where
  id : Int
  title : String
  url : String
  date : String
  content : String
  aiSummary : String
  status : String
  source : String
  createdAt : String
  updatedAt : String
deriving DecidableEq, Repr

/-- `Database.update_announcement_detail` on a table; `strategy` is the
database's active dedupe strategy, taken as an argument to record that
the statement does not depend on it. -/
def update_announcement_detail (strategy : String) (tbl : List AnnRow)
    (title content aiSummary status now : String) : List AnnRow :=
  tbl.map fun r =>
    if r.title = title then
      { r with content := content, aiSummary := aiSummary, status := status, updatedAt := now }
    else r

/-! ## Auxiliary definitions for the statements -/

/-- State carried by an ingest-loop outcome, whether the loop finished
(`ok`) or an exception escaped an iteration (`error`). -/
def stateOf : Except LoopState LoopState → LoopState
  | .ok st => st
  | .error st => st

/-- The oracle calls that can abort the whole run do not raise (the
detail stage may still raise — it is caught per item). -/
def OracleSafe (orc : ItemOracle) : Prop :=
  (∃ b, orc.isDup = Except.ok b) ∧ (∃ b, orc.insertOk = Except.ok b) ∧
    orc.failedUpdateOk = Except.ok ()

/-- A four-page site: start page `s` discovers one category `c1` whose
pagination chain is `c1 → p2 → p3`; no page carries items. -/
def siteC4 : Site := fun u =>
  if u = "s" then
    some { legacyItems := [], noticeItems := [], zcptItems := [],
           categoryLinks := ["c1"], anchorNext := none, zcptNext := none }
  else if u = "c1" then
    some { legacyItems := [], noticeItems := [], zcptItems := [],
           categoryLinks := [], anchorNext := some "p2", zcptNext := none }
  else if u = "p2" then
    some { legacyItems := [], noticeItems := [], zcptItems := [],
           categoryLinks := [], anchorNext := some "p3", zcptNext := none }
  else if u = "p3" then
    some { legacyItems := [], noticeItems := [], zcptItems := [],
           categoryLinks := [], anchorNext := none, zcptNext := none }
  else none

def cfgC4 : CrawlConfig :=
  { listUrl := "s", maxPagesTotal := 2, maxPagesPerCategory := 3 }

/-- Announcements-table rows: two rows share the title `T` under the
`title_date` strategy (legal there), one row has another title. -/
def rowA : AnnRow := ⟨1, "T", "u1", "2025-01-01", "", "", "NEW", "s", "t0", "t0"⟩

def rowB : AnnRow := ⟨2, "T", "u2", "2025-01-02", "", "", "NEW", "s", "t0", "t0"⟩

def rowC : AnnRow := ⟨3, "X", "u3", "2025-01-03", "c3", "a3", "PROCESSED", "s", "t0", "t1"⟩

/-! # Theorems -/

/-- **C3** — the claim says `get_text` on the designated origin posts the
path+query to the relay endpoint with a bearer credential when a relay is
configured. The `HttpClient` under `src/` has no relay configuration at
all: every `get_text` issues a direct GET, in particular on the exact URL
the repository's own relay test exercises, contradicting that test (and
`run_once`, which passes relay keywords `HttpConfig` does not accept). -/
theorem get_text_never_relays :
    (∀ cfg url, get_text_request cfg url = HttpRequest.get url) ∧
      ∀ cfg, get_text_request cfg zcptTestUrl ≠ relayExpectedRequest := by
  refine ⟨fun _ _ => rfl, fun cfg h => ?_⟩
  simp [get_text_request, relayExpectedRequest] at h

/-- **C10** — `update_announcement_detail` selects rows by title alone and
independently of the active dedupe strategy: every row whose title equals
the argument gets exactly `content`, `ai_summary`, `status`, `updated_at`
replaced; every other row, and every other column, is unchanged; under
the `title_date` strategy an update therefore mutates all rows sharing
the title. -/
theorem update_detail_by_title_only :
    (∀ s1 s2 tbl t c a stt now,
        update_announcement_detail s1 tbl t c a stt now =
          update_announcement_detail s2 tbl t c a stt now) ∧
      (∀ s tbl t c a stt now,
        (update_announcement_detail s tbl t c a stt now).length = tbl.length) ∧
      (∀ s tbl t c a stt now (i : Nat) (r : AnnRow), tbl[i]? = some r → r.title = t →
        (update_announcement_detail s tbl t c a stt now)[i]? =
          some { r with content := c, aiSummary := a, status := stt, updatedAt := now }) ∧
      (∀ s tbl t c a stt now (i : Nat) (r : AnnRow), tbl[i]? = some r → r.title ≠ t →
        (update_announcement_detail s tbl t c a stt now)[i]? = some r) ∧
      update_announcement_detail "title_date" [rowA, rowB, rowC] "T" "c1" "a1"
          "PROCESSED" "t2" =
        [{ rowA with content := "c1", aiSummary := "a1", status := "PROCESSED", updatedAt := "t2" },
         { rowB with content := "c1", aiSummary := "a1", status := "PROCESSED", updatedAt := "t2" },
         rowC] := by
  refine ⟨fun _ _ _ _ _ _ _ _ => rfl, fun _ tbl _ _ _ _ _ => ?_, ?_, ?_, by decide⟩
  · simp [update_announcement_detail]
  · intro s tbl t c a stt now i r hi hr
    simp [update_announcement_detail, List.getElem?_map, hi, hr]
  · intro s tbl t c a stt now i r hi hr
    simp [update_announcement_detail, List.getElem?_map, hi, hr]

/-- Witness for `update_detail_by_title_only`: instantiating the
matching-row clause on the concrete table at index 1 (strategy `url`,
title `T`). -/
theorem update_detail_by_title_only_witness :
    ([rowA, rowB, rowC][1]? = some rowB) ∧ rowB.title = "T" ∧
      (update_announcement_detail "url" [rowA, rowB, rowC] "T" "c9" "a9" "FAILED" "t9")[1]? =
        some { rowB with content := "c9", aiSummary := "a9", status := "FAILED", updatedAt := "t9" } :=
  ⟨by decide, by decide,
    update_detail_by_title_only.2.2.1 "url" [rowA, rowB, rowC] "T" "c9" "a9" "FAILED" "t9"
      1 rowB (by decide) (by decide)⟩

/-! ## Dedup lemmas (for the collector's output) -/

theorem dedupFirstAux_eq [DecidableEq α] (l : List α) :
    ∀ out : List α,
      (dedupFirstAux l (out, out)).1 =
        out ++ firstSeenDedup (l.filter fun x => decide (x ∉ out)) := by
  induction l with
  | nil => intro out; simp [dedupFirstAux, firstSeenDedup]
  | cons x xs ih =>
    intro out
    by_cases hx : x ∈ out
    · rw [show dedupFirstAux (x :: xs) (out, out) = dedupFirstAux xs (out, out) by
        simp [dedupFirstAux, hx]]
      rw [ih out]
      simp [hx]
    · rw [show dedupFirstAux (x :: xs) (out, out) =
          dedupFirstAux xs (out ++ [x], out ++ [x]) by simp [dedupFirstAux, hx]]
      rw [ih (out ++ [x])]
      have hfilter :
          xs.filter (fun y => decide (y ∉ out ++ [x])) =
            (xs.filter fun y => decide (y ∉ out)).filter fun y => decide (y ≠ x) := by
        rw [List.filter_filter]
        refine List.filter_congr fun a _ => ?_
        by_cases ha : a ∈ out <;> by_cases hax : a = x <;>
          simp [ha, hax, List.mem_append]
      rw [hfilter]
      have hcons :
          firstSeenDedup ((x :: xs).filter fun y => decide (y ∉ out)) =
            x :: firstSeenDedup ((xs.filter fun y => decide (y ∉ out)).filter
              fun y => decide (y ≠ x)) := by
        rw [List.filter_cons_of_pos (by simp [hx]), firstSeenDedup]
      rw [hcons]
      simp

theorem dedupFirst_eq_firstSeenDedup [DecidableEq α] (l : List α) :
    dedupFirst l = firstSeenDedup l := by
  have h := dedupFirstAux_eq l []
  simpa [dedupFirst] using h

theorem firstSeenDedup_sublist [DecidableEq α] (l : List α) :
    List.Sublist (firstSeenDedup l) l := by
  induction l using firstSeenDedup.induct with
  | case1 => simp [firstSeenDedup]
  | case2 x xs ih =>
    rw [firstSeenDedup]
    exact (ih.trans (List.filter_sublist xs)).cons₂ x

theorem firstSeenDedup_nodup [DecidableEq α] (l : List α) :
    (firstSeenDedup l).Nodup := by
  induction l using firstSeenDedup.induct with
  | case1 => simp [firstSeenDedup]
  | case2 x xs ih =>
    rw [firstSeenDedup]
    refine List.nodup_cons.mpr ⟨fun hx => ?_, ih⟩
    have hmem : x ∈ xs.filter fun y => decide (y ≠ x) :=
      (firstSeenDedup_sublist _).subset hx
    simp at hmem

/-- **C9** — the crawl's dedup pass returns exactly the raw item list with
every later exact `(title, link, date_raw)` duplicate removed: the output
is duplicate-free, is a subsequence of the input (first-seen order), and
the collector's `items` field is that pass applied to its raw union. -/
theorem collector_output_dedup :
    (∀ raw : List RawItem, dedupFirst raw = firstSeenDedup raw) ∧
      (∀ raw : List RawItem, (dedupFirst raw).Nodup) ∧
      (∀ raw : List RawItem, List.Sublist (dedupFirst raw) raw) ∧
      ∀ site cfg keep fuel,
        (collect_list_items site cfg keep fuel).map (fun r => r.items) =
          (collect_list_items site cfg keep fuel).map fun r => dedupFirst r.raw := by
  refine ⟨fun raw => dedupFirst_eq_firstSeenDedup raw,
    fun raw => by rw [dedupFirst_eq_firstSeenDedup]; exact firstSeenDedup_nodup raw,
    fun raw => by rw [dedupFirst_eq_firstSeenDedup]; exact firstSeenDedup_sublist raw,
    fun site cfg keep fuel => ?_⟩
  unfold collect_list_items
  cases site cfg.listUrl <;> simp

/-! ## Min/max lemmas for the page stop rules -/

theorem dateMaxD_seed_le (ds : List CivilDate) : ∀ d, d.key ≤ (dateMaxD d ds).key := by
  induction ds with
  | nil => intro d; simp [dateMaxD]
  | cons b bs ih =>
    intro d
    have hstep : dateMaxD d (b :: bs) = dateMaxD (if d.key < b.key then b else d) bs := rfl
    rw [hstep]
    by_cases h : d.key < b.key
    · simpa [h] using le_trans (le_of_lt h) (ih b)
    · simpa [h] using ih d

theorem dateMaxD_mem (ds : List CivilDate) : ∀ d, dateMaxD d ds ∈ d :: ds := by
  induction ds with
  | nil => intro d; simp [dateMaxD]
  | cons b bs ih =>
    intro d
    have hstep : dateMaxD d (b :: bs) = dateMaxD (if d.key < b.key then b else d) bs := rfl
    rw [hstep]
    rcases List.mem_cons.mp (ih (if d.key < b.key then b else d)) with h | h
    · by_cases hd : d.key < b.key
      · simp only [if_pos hd] at h ⊢
        simp [h]
      · simp only [if_neg hd] at h ⊢
        simp [h]
    · simp [List.mem_cons.mpr (Or.inr h)]

theorem dateMaxD_le (ds : List CivilDate) :
    ∀ d x, x ∈ d :: ds → x.key ≤ (dateMaxD d ds).key := by
  induction ds with
  | nil =>
    intro d x hx
    simp only [List.mem_singleton] at hx
    simp [dateMaxD, hx]
  | cons b bs ih =>
    intro d x hx
    have hstep : dateMaxD d (b :: bs) = dateMaxD (if d.key < b.key then b else d) bs := rfl
    rw [hstep]
    have hseed : d.key ≤ (if d.key < b.key then b else d).key ∧
        b.key ≤ (if d.key < b.key then b else d).key := by
      by_cases hd : d.key < b.key <;> simp [hd] <;> omega
    rcases List.mem_cons.mp hx with rfl | hx2
    · exact le_trans hseed.1 (dateMaxD_seed_le bs _)
    · rcases List.mem_cons.mp hx2 with rfl | hx3
      · exact le_trans hseed.2 (dateMaxD_seed_le bs _)
      · exact ih _ x (List.mem_cons.mpr (Or.inr hx3))

theorem dateMinD_seed_ge (ds : List CivilDate) : ∀ d, (dateMinD d ds).key ≤ d.key := by
  induction ds with
  | nil => intro d; simp [dateMinD]
  | cons b bs ih =>
    intro d
    have hstep : dateMinD d (b :: bs) = dateMinD (if b.key < d.key then b else d) bs := rfl
    rw [hstep]
    by_cases h : b.key < d.key
    · simpa [h] using le_trans (ih b) (le_of_lt h)
    · simpa [h] using ih d

theorem dateMinD_mem (ds : List CivilDate) : ∀ d, dateMinD d ds ∈ d :: ds := by
  induction ds with
  | nil => intro d; simp [dateMinD]
  | cons b bs ih =>
    intro d
    have hstep : dateMinD d (b :: bs) = dateMinD (if b.key < d.key then b else d) bs := rfl
    rw [hstep]
    rcases List.mem_cons.mp (ih (if b.key < d.key then b else d)) with h | h
    · by_cases hd : b.key < d.key
      · simp only [if_pos hd] at h ⊢
        simp [h]
      · simp only [if_neg hd] at h ⊢
        simp [h]
    · simp [List.mem_cons.mpr (Or.inr h)]

theorem dateMinD_le (ds : List CivilDate) :
    ∀ d x, x ∈ d :: ds → (dateMinD d ds).key ≤ x.key := by
  induction ds with
  | nil =>
    intro d x hx
    simp only [List.mem_singleton] at hx
    simp [dateMinD, hx]
  | cons b bs ih =>
    intro d x hx
    have hstep : dateMinD d (b :: bs) = dateMinD (if b.key < d.key then b else d) bs := rfl
    rw [hstep]
    have hseed : (if b.key < d.key then b else d).key ≤ d.key ∧
        (if b.key < d.key then b else d).key ≤ b.key := by
      by_cases hd : b.key < d.key <;> simp [hd] <;> omega
    rcases List.mem_cons.mp hx with rfl | hx2
    · exact le_trans (dateMinD_seed_ge bs _) hseed.1
    · rcases List.mem_cons.mp hx2 with rfl | hx3
      · exact le_trans (dateMinD_seed_ge bs _) hseed.2
      · exact ih _ x (List.mem_cons.mpr (Or.inr hx3))

/-- **C2** — the asymmetric stop rule. The zcpt (unordered) shape stops
iff the page has at least one parseable date and every parseable date is
older than `earliest_keep` (i.e. its maximum is stale); the notice
(ordered) shape, when all its dates parse, stops iff some date is older
than `earliest_keep` (i.e. its minimum is stale); once the per-page stop
decision fires the branch walk fetches nothing further, and a fresh next
URL is followed exactly when it does not fire; on the same two-date page
(one fresh, one stale) the zcpt shape continues while the notice shape
stops. -/
theorem asymmetric_stop_rule :
    (∀ (items : List RawItem) keep,
        ((zcpt_should_stop_page items keep).1 = true ↔
          (items.filterMap fun it => parseIsoDate it.dateRaw) ≠ [] ∧
            ∀ x ∈ items.filterMap fun it => parseIsoDate it.dateRaw,
              x.key < keep.key)) ∧
      (∀ (notices : List RawItem) keep ds,
        notices.mapM (fun it => parseIsoDate it.dateRaw) = some ds → ds ≠ [] →
          (noticeShouldStop notices keep = true ↔ ∃ x ∈ ds, x.key < keep.key)) ∧
      (∀ site keep rem url st p, site url = some p →
        pageStopDecision p keep = true →
          walkBranch site keep (rem + 1) url st =
            { st with fetchCount := st.fetchCount + 1, raw := st.raw ++ pageItems p }) ∧
      (∀ site keep rem url st p nu, site url = some p →
        pageStopDecision p keep = false → p.anchorNext = some nu → nu ∉ st.seen →
          walkBranch site keep (rem + 1) url st =
            walkBranch site keep rem nu
              { st with
                  seen := st.seen ++ [nu]
                  raw := st.raw ++ pageItems p
                  pageTurns := st.pageTurns + 1
                  fetchCount := st.fetchCount + 1 }) ∧
      pageStopDecision
          { legacyItems := [], noticeItems := [],
            zcptItems := [("t1", "l1", "2025-03-10"), ("t2", "l2", "2025-03-01")],
            categoryLinks := [], anchorNext := none, zcptNext := none }
          ⟨2025, 3, 5⟩ = false ∧
      pageStopDecision
          { legacyItems := [],
            noticeItems := [("t1", "l1", "2025-03-10"), ("t2", "l2", "2025-03-01")],
            zcptItems := [], categoryLinks := [], anchorNext := none, zcptNext := none }
          ⟨2025, 3, 5⟩ = true := by
  refine ⟨?_, ?_, ?_, ?_, by decide, by decide⟩
  · intro items keep
    unfold zcpt_should_stop_page
    cases hds : items.filterMap fun it => parseIsoDate it.dateRaw with
    | nil => simp
    | cons d rest =>
      simp only [ne_eq, reduceCtorEq, not_false_iff, true_and, CivilDate.ltb,
        decide_eq_true_iff]
      constructor
      · intro hmax x hx
        exact lt_of_le_of_lt (dateMaxD_le rest d x hx) hmax
      · intro hall
        exact hall _ (dateMaxD_mem rest d)
  · intro notices keep ds hparse hne
    unfold noticeShouldStop
    rw [hparse]
    cases ds with
    | nil => exact absurd rfl hne
    | cons d rest =>
      simp only [CivilDate.ltb, decide_eq_true_iff]
      constructor
      · intro hmin
        exact ⟨dateMinD d rest, dateMinD_mem rest d, hmin⟩
      · rintro ⟨x, hx, hlt⟩
        exact lt_of_le_of_lt (dateMinD_le rest d x hx) hlt
  · intro site keep rem url st p hsite hstop
    simp [walkBranch, hsite, hstop]
  · intro site keep rem url st p nu hsite hstop hnext hseen
    simp [walkBranch, hsite, hstop, hnext, hseen]

/-- Witness for `asymmetric_stop_rule`: the stale one-item page stops
under both shapes; a stopping page ends the branch walk after its own
fetch; a non-stopping page with a fresh next URL is followed. -/
theorem asymmetric_stop_rule_witness :
    (zcpt_should_stop_page [("t", "l", "2025-03-01")] ⟨2025, 3, 5⟩).1 = true ∧
      noticeShouldStop [("t", "l", "2025-03-01")] ⟨2025, 3, 5⟩ = true ∧
      walkBranch
          (fun u =>
            if u = "u" then
              some { legacyItems := [], noticeItems := [],
                     zcptItems := [("t", "l", "2025-03-01")],
                     categoryLinks := [], anchorNext := none, zcptNext := none }
            else none)
          ⟨2025, 3, 5⟩ 1 "u" ⟨[], [], 0, 0⟩ =
        { seen := [], raw := [("t", "l", "2025-03-01")], pageTurns := 0, fetchCount := 1 } ∧
      walkBranch
          (fun u =>
            if u = "u" then
              some { legacyItems := [], noticeItems := [],
                     zcptItems := [("t", "l", "2025-03-10")],
                     categoryLinks := [], anchorNext := some "v", zcptNext := none }
            else none)
          ⟨2025, 3, 5⟩ 1 "u" ⟨[], [], 0, 0⟩ =
        walkBranch
          (fun u =>
            if u = "u" then
              some { legacyItems := [], noticeItems := [],
                     zcptItems := [("t", "l", "2025-03-10")],
                     categoryLinks := [], anchorNext := some "v", zcptNext := none }
            else none)
          ⟨2025, 3, 5⟩ 0 "v" ⟨["v"], [("t", "l", "2025-03-10")], 1, 1⟩ :=
  ⟨(asymmetric_stop_rule.1 [("t", "l", "2025-03-01")] ⟨2025, 3, 5⟩).mpr
      ⟨by decide, by decide⟩,
    (asymmetric_stop_rule.2.1 [("t", "l", "2025-03-01")] ⟨2025, 3, 5⟩ [⟨2025, 3, 1⟩]
        (by decide) (by decide)).mpr ⟨⟨2025, 3, 1⟩, by decide, by decide⟩,
    asymmetric_stop_rule.2.2.1 _ ⟨2025, 3, 5⟩ 0 "u" ⟨[], [], 0, 0⟩
      { legacyItems := [], noticeItems := [], zcptItems := [("t", "l", "2025-03-01")],
        categoryLinks := [], anchorNext := none, zcptNext := none } rfl (by decide),
    asymmetric_stop_rule.2.2.2.1 _ ⟨2025, 3, 5⟩ 0 "u" ⟨[], [], 0, 0⟩
      { legacyItems := [], noticeItems := [], zcptItems := [("t", "l", "2025-03-10")],
        categoryLinks := [], anchorNext := some "v", zcptNext := none } "v" rfl
      (by decide) rfl (by decide)⟩

/-! ## Page-budget lemmas for the crawl -/

theorem walk_fetch_bound (site : Site) (keep : CivilDate) :
    ∀ (n : Nat) (url : String) (st : CrawlState),
      (walkBranch site keep n url st).fetchCount ≤ st.fetchCount + n := by
  intro n
  induction n with
  | zero => intro url st; simp [walkBranch]
  | succ n ih =>
    intro url st
    simp only [walkBranch]
    cases site url with
    | none => simp
    | some p =>
      by_cases hstop : pageStopDecision p keep = true
      · simp [hstop]
      · simp only [hstop]
        cases hnext : (match p.anchorNext with | some u => some u | none => p.zcptNext) with
        | none => simp [hnext]
        | some nu =>
          by_cases hmem : nu ∈ st.seen
          · simp [hnext, hmem]
          · simp only [hnext, hmem]
            have h2 := ih nu
              { seen := st.seen ++ [nu], raw := st.raw ++ pageItems p,
                pageTurns := st.pageTurns + 1, fetchCount := st.fetchCount + 1 }
            simp at h2 ⊢
            omega

theorem walk_seen_bound (site : Site) (keep : CivilDate) :
    ∀ (n : Nat) (url : String) (st : CrawlState),
      (walkBranch site keep n url st).seen.length ≤ st.seen.length + n := by
  intro n
  induction n with
  | zero => intro url st; simp [walkBranch]
  | succ n ih =>
    intro url st
    simp only [walkBranch]
    cases site url with
    | none => simp
    | some p =>
      by_cases hstop : pageStopDecision p keep = true
      · simp [hstop]
      · simp only [hstop]
        cases hnext : (match p.anchorNext with | some u => some u | none => p.zcptNext) with
        | none => simp [hnext]
        | some nu =>
          by_cases hmem : nu ∈ st.seen
          · simp [hnext, hmem]
          · simp only [hnext, hmem]
            have := ih nu
              { seen := st.seen ++ [nu], raw := st.raw ++ pageItems p,
                pageTurns := st.pageTurns + 1, fetchCount := st.fetchCount + 1 }
            simp at this ⊢
            omega

theorem collectLoop_seen_bound (site : Site) (keep : CivilDate) (maxT maxC : Nat) :
    ∀ (fuel : Nat) (queue : List String) (st : CrawlState),
      st.seen.length ≤ maxT + maxC →
        (collectLoop site keep maxT maxC fuel queue st).seen.length ≤ maxT + maxC := by
  intro fuel
  induction fuel with
  | zero => intro queue st h; simpa [collectLoop] using h
  | succ fuel ih =>
    intro queue st h
    cases queue with
    | nil => simpa [collectLoop] using h
    | cons url rest =>
      simp only [collectLoop]
      by_cases hlt : st.seen.length < maxT
      · simp only [if_pos hlt]
        by_cases hmem : url ∈ st.seen
        · simp only [if_pos hmem]
          exact ih rest st h
        · simp only [if_neg hmem]
          refine ih _ _ ?_
          have hw := walk_seen_bound site keep maxC url
            { seen := st.seen ++ [url], raw := st.raw, pageTurns := st.pageTurns,
              fetchCount := st.fetchCount }
          simp at hw ⊢
          omega
      · simpa [if_neg hlt] using h

/-- **C4 (amended)** — the global budget is checked only between branches,
so it does not bound the fetch count; what holds is: a branch's
pagination walk performs at most `n = max_pages_per_category` fetches and
visits at most `n` new pages, and the collector's total set of visited
pages never exceeds `max(1, max_pages_total) + max(1,
max_pages_per_category)` entries. -/
theorem page_budgets :
    (∀ site keep n url st,
        (walkBranch site keep n url st).fetchCount ≤ st.fetchCount + n) ∧
      (∀ site keep n url st,
        (walkBranch site keep n url st).seen.length ≤ st.seen.length + n) ∧
      ∀ site cfg keep fuel r, collect_list_items site cfg keep fuel = some r →
        r.pagesSeen ≤ max 1 cfg.maxPagesTotal + max 1 cfg.maxPagesPerCategory := by
  refine ⟨fun site keep => walk_fetch_bound site keep,
    fun site keep => walk_seen_bound site keep, ?_⟩
  intro site cfg keep fuel r h
  unfold collect_list_items at h
  cases hsite : site cfg.listUrl with
  | none => rw [hsite] at h; exact absurd h (by simp)
  | some startP =>
    rw [hsite] at h
    have hr : r.pagesSeen =
        (collectLoop site keep (max 1 cfg.maxPagesTotal) (max 1 cfg.maxPagesPerCategory)
          fuel startP.categoryLinks
          { seen := [cfg.listUrl], raw := pageItems startP, pageTurns := 0,
            fetchCount := 1 }).seen.length := by
      cases h
      rfl
    rw [hr]
    refine collectLoop_seen_bound site keep _ _ fuel startP.categoryLinks _ ?_
    have h1 : 1 ≤ max 1 cfg.maxPagesTotal := le_max_left 1 _
    have h2 : 1 ≤ max 1 cfg.maxPagesPerCategory := le_max_left 1 _
    simp
    omega

/-- Counterexample to **C4** as stated: on a four-page site with
`max_pages_total = 2` the collector performs 5 fetches and records 4
visited pages — the global budget does not bound the total number of
fetched pages. -/
theorem page_budget_counterexample :
    (collect_list_items siteC4 cfgC4 ⟨2025, 1, 1⟩ 10).map (fun r => r.fetchCount) =
        some 5 ∧
      (collect_list_items siteC4 cfgC4 ⟨2025, 1, 1⟩ 10).map (fun r => r.pagesSeen) =
        some 4 ∧
      cfgC4.maxPagesTotal = 2 ∧ 2 < 4 := by
  refine ⟨by decide, by decide, rfl, by omega⟩

/-- Witness for `page_budgets`: the bound instantiated on the concrete
four-page site (4 visited pages against the bound `2 + 3`). -/
theorem page_budgets_witness :
    collect_list_items siteC4 cfgC4 ⟨2025, 1, 1⟩ 10 =
        some { items := [], raw := [], pagesSeen := 4, pageTurns := 2, fetchCount := 5 } ∧
      (4 : Nat) ≤ max 1 cfgC4.maxPagesTotal + max 1 cfgC4.maxPagesPerCategory :=
  ⟨by decide,
    page_budgets.2.2 siteC4 cfgC4 ⟨2025, 1, 1⟩ 10
      { items := [], raw := [], pagesSeen := 4, pageTurns := 2, fetchCount := 5 }
      (by decide)⟩

/-- **C7** — a normalized item survives the filter iff its canonical date
is among the `N` consecutive dates ending at the reference date (`N` the
lookback clamped to at least 1, so the window is never empty) and the
keyword regex matches the title as a search; survivors keep input order
(the filter yields a subsequence). Concretely, with lookback 2 an item on
the window's oldest edge passes and one a day older does not; with
lookback 7 an item 6 days old passes; a title the pattern matches only as
a proper substring still passes. -/
theorem lookback_keyword_filter :
    (∀ (normalized : List RawItem) (allowed : List String) (L : String → Bool) it,
        it ∈ candidateFilter normalized allowed (reSearch L) ↔
          it ∈ normalized ∧ it.dateRaw ∈ allowed ∧ reSearch L it.title = true) ∧
      (∀ (normalized : List RawItem) (allowed : List String) (kw : String → Bool),
        List.Sublist (candidateFilter normalized allowed kw) normalized) ∧
      (∀ base (lb : Int) s,
        s ∈ allowedDates base (if lb < 1 then 1 else lb).toNat ↔
          ∃ i : Nat, i < (if lb < 1 then 1 else lb).toNat ∧ s = (base.subDays i).iso) ∧
      (∀ base (lb : Int),
        0 < (allowedDates base (if lb < 1 then 1 else lb).toNat).length) ∧
      candidateFilter [("xaby", "l1", "2025-03-09"), ("xaby", "l2", "2025-03-08")]
          (allowedDates ⟨2025, 3, 10⟩ 2) (reSearch (· == "ab")) =
        [("xaby", "l1", "2025-03-09")] ∧
      ((· == "ab") : String → Bool) "xaby" = false ∧
      reSearch (· == "ab") "xaby" = true ∧
      candidateFilter [("ab", "l", "2025-03-04")] (allowedDates ⟨2025, 3, 10⟩ 7)
          (reSearch (· == "ab")) =
        [("ab", "l", "2025-03-04")] := by
  refine ⟨?_, ?_, ?_, ?_, by decide, by decide, by decide, by decide⟩
  · intro normalized allowed L it
    simp [candidateFilter, List.mem_filter, and_assoc]
  · intro normalized allowed kw
    exact List.filter_sublist normalized
  · intro base lb s
    simp [allowedDates, eq_comm]
  · intro base lb
    simp [allowedDates]
    omega

/-! ## Character lemmas for `normalize_date` -/

theorem digit_not_ws (c : Char) (h : c.isDigit = true) : c.isWhitespace = false := by
  cases hw : c.isWhitespace
  · rfl
  · exfalso
    simp only [Char.isWhitespace, Bool.or_eq_true, decide_eq_true_eq] at hw
    rcases hw with ((rfl | rfl) | rfl) | rfl <;> exact absurd h (by decide)

theorem digit_ne_lb (c : Char) (h : c.isDigit = true) : c ≠ '[' := by
  intro hc; subst hc; exact absurd h (by decide)

theorem digit_ne_rb (c : Char) (h : c.isDigit = true) : c ≠ ']' := by
  intro hc; subst hc; exact absurd h (by decide)

theorem digit_ne_slash (c : Char) (h : c.isDigit = true) : c ≠ '/' := by
  intro hc; subst hc; exact absurd h (by decide)

theorem dropWhile_eq_self_of_forall (p : Char → Bool) (l : List Char)
    (h : ∀ c ∈ l, p c = false) : l.dropWhile p = l := by
  cases l with
  | nil => rfl
  | cons a t => simp [List.dropWhile_cons, h a (List.mem_cons_self a t)]

theorem stripChars_eq_self (l : List Char) (h : ∀ c ∈ l, c.isWhitespace = false) :
    stripChars l = l := by
  unfold stripChars
  rw [dropWhile_eq_self_of_forall _ _ h,
    dropWhile_eq_self_of_forall _ _ fun c hc => h c (List.mem_reverse.mp hc),
    List.reverse_reverse]

theorem dropBrackets_eq_self (l : List Char) (h : ∀ c ∈ l, c ≠ '[' ∧ c ≠ ']') :
    dropBrackets l = l := by
  unfold dropBrackets
  exact List.filter_eq_self.mpr fun a ha => by simp [(h a ha).1, (h a ha).2]

theorem cleanDateChars_eq_self (l : List Char)
    (h : ∀ c ∈ l, c.isWhitespace = false ∧ c ≠ '[' ∧ c ≠ ']') :
    cleanDateChars l = l := by
  unfold cleanDateChars
  rw [stripChars_eq_self l fun c hc => (h c hc).1,
    dropBrackets_eq_self l fun c hc => (h c hc).2,
    stripChars_eq_self l fun c hc => (h c hc).1]

theorem cleanDateChars_bracketed (l : List Char)
    (h : ∀ c ∈ l, c.isWhitespace = false ∧ c ≠ '[' ∧ c ≠ ']') :
    cleanDateChars ('[' :: (l ++ [']'])) = l := by
  have hws : ∀ c ∈ ('[' :: (l ++ [']'])), c.isWhitespace = false := by
    intro c hc
    rcases List.mem_cons.mp hc with rfl | hc2
    · decide
    · rcases List.mem_append.mp hc2 with hc3 | hc4
      · exact (h c hc3).1
      · simp only [List.mem_singleton] at hc4
        subst hc4
        decide
  have hdb : dropBrackets ('[' :: (l ++ [']'])) = l := by
    have hsplit : ('[' :: (l ++ [']'])) = ['['] ++ l ++ [']'] := by simp
    rw [hsplit]
    unfold dropBrackets
    rw [List.filter_append, List.filter_append]
    have h3 : List.filter (fun c => !(c = '[' || c = ']')) l = l :=
      List.filter_eq_self.mpr fun a ha => by simp [(h a ha).2.1, (h a ha).2.2]
    rw [h3]
    simp
  unfold cleanDateChars
  rw [stripChars_eq_self _ hws, hdb, stripChars_eq_self l fun c hc => (h c hc).1]

/-- **C8** — `normalize_date` passes `YYYY-MM-DD` through unchanged,
re-delimits `YYYY/MM/DD`, strips brackets off bracket-wrapped variants of
both shapes, maps bare `MM-DD` onto the reference year, and yields `none`
for every other cleaned shape, the empty/whitespace-only input included
(the embedding is a total function — the original never raises). -/
theorem normalize_date_shapes :
    (∀ (year : Nat) (y1 y2 y3 y4 m1 m2 d1 d2 : Char),
        shapeYMD [y1, y2, y3, y4, '-', m1, m2, '-', d1, d2] = true →
          normalize_date (String.mk [y1, y2, y3, y4, '-', m1, m2, '-', d1, d2]) year =
            some (String.mk [y1, y2, y3, y4, '-', m1, m2, '-', d1, d2])) ∧
      (∀ (year : Nat) (y1 y2 y3 y4 m1 m2 d1 d2 : Char),
        shapeSlash [y1, y2, y3, y4, '/', m1, m2, '/', d1, d2] = true →
          normalize_date (String.mk [y1, y2, y3, y4, '/', m1, m2, '/', d1, d2]) year =
            some (String.mk [y1, y2, y3, y4, '-', m1, m2, '-', d1, d2])) ∧
      (∀ (year : Nat) (y1 y2 y3 y4 m1 m2 d1 d2 : Char),
        shapeYMD [y1, y2, y3, y4, '-', m1, m2, '-', d1, d2] = true →
          normalize_date
              (String.mk ['[', y1, y2, y3, y4, '-', m1, m2, '-', d1, d2, ']']) year =
            some (String.mk [y1, y2, y3, y4, '-', m1, m2, '-', d1, d2])) ∧
      (∀ (year : Nat) (y1 y2 y3 y4 m1 m2 d1 d2 : Char),
        shapeSlash [y1, y2, y3, y4, '/', m1, m2, '/', d1, d2] = true →
          normalize_date
              (String.mk ['[', y1, y2, y3, y4, '/', m1, m2, '/', d1, d2, ']']) year =
            some (String.mk [y1, y2, y3, y4, '-', m1, m2, '-', d1, d2])) ∧
      (∀ (year : Nat) (m1 m2 d1 d2 : Char),
        shapeMMDD [m1, m2, '-', d1, d2] = true →
          normalize_date (String.mk [m1, m2, '-', d1, d2]) year =
            some (String.mk ((padNum 4 year).toList ++ ['-', m1, m2, '-', d1, d2]))) ∧
      (∀ (year : Nat) (l : List Char), cleanDateChars l = [] →
        normalize_date (String.mk l) year = none) ∧
      ∀ (year : Nat) (l : List Char),
        shapeYMD (cleanDateChars l) = false → shapeSlash (cleanDateChars l) = false →
          shapeMMDD (cleanDateChars l) = false →
          normalize_date (String.mk l) year = none := by
  have plainYMD : ∀ (y1 y2 y3 y4 m1 m2 d1 d2 : Char),
      shapeYMD [y1, y2, y3, y4, '-', m1, m2, '-', d1, d2] = true →
        ∀ c ∈ ([y1, y2, y3, y4, '-', m1, m2, '-', d1, d2] : List Char),
          c.isWhitespace = false ∧ c ≠ '[' ∧ c ≠ ']' := by
    intro y1 y2 y3 y4 m1 m2 d1 d2 h c hc
    simp only [shapeYMD, List.all_cons, List.all_nil, Bool.and_eq_true, and_true] at h
    obtain ⟨h1, h2, h3, h4, h5, h6, h7, h8⟩ := h
    simp only [List.mem_cons, List.not_mem_nil, or_false] at hc
    rcases hc with rfl | rfl | rfl | rfl | rfl | rfl | rfl | rfl | rfl | rfl
    · exact ⟨digit_not_ws _ h1, digit_ne_lb _ h1, digit_ne_rb _ h1⟩
    · exact ⟨digit_not_ws _ h2, digit_ne_lb _ h2, digit_ne_rb _ h2⟩
    · exact ⟨digit_not_ws _ h3, digit_ne_lb _ h3, digit_ne_rb _ h3⟩
    · exact ⟨digit_not_ws _ h4, digit_ne_lb _ h4, digit_ne_rb _ h4⟩
    · exact ⟨by decide, by decide, by decide⟩
    · exact ⟨digit_not_ws _ h5, digit_ne_lb _ h5, digit_ne_rb _ h5⟩
    · exact ⟨digit_not_ws _ h6, digit_ne_lb _ h6, digit_ne_rb _ h6⟩
    · exact ⟨by decide, by decide, by decide⟩
    · exact ⟨digit_not_ws _ h7, digit_ne_lb _ h7, digit_ne_rb _ h7⟩
    · exact ⟨digit_not_ws _ h8, digit_ne_lb _ h8, digit_ne_rb _ h8⟩
  have plainSlash : ∀ (y1 y2 y3 y4 m1 m2 d1 d2 : Char),
      shapeSlash [y1, y2, y3, y4, '/', m1, m2, '/', d1, d2] = true →
        ∀ c ∈ ([y1, y2, y3, y4, '/', m1, m2, '/', d1, d2] : List Char),
          c.isWhitespace = false ∧ c ≠ '[' ∧ c ≠ ']' := by
    intro y1 y2 y3 y4 m1 m2 d1 d2 h c hc
    simp only [shapeSlash, List.all_cons, List.all_nil, Bool.and_eq_true, and_true] at h
    obtain ⟨h1, h2, h3, h4, h5, h6, h7, h8⟩ := h
    simp only [List.mem_cons, List.not_mem_nil, or_false] at hc
    rcases hc with rfl | rfl | rfl | rfl | rfl | rfl | rfl | rfl | rfl | rfl
    · exact ⟨digit_not_ws _ h1, digit_ne_lb _ h1, digit_ne_rb _ h1⟩
    · exact ⟨digit_not_ws _ h2, digit_ne_lb _ h2, digit_ne_rb _ h2⟩
    · exact ⟨digit_not_ws _ h3, digit_ne_lb _ h3, digit_ne_rb _ h3⟩
    · exact ⟨digit_not_ws _ h4, digit_ne_lb _ h4, digit_ne_rb _ h4⟩
    · exact ⟨by decide, by decide, by decide⟩
    · exact ⟨digit_not_ws _ h5, digit_ne_lb _ h5, digit_ne_rb _ h5⟩
    · exact ⟨digit_not_ws _ h6, digit_ne_lb _ h6, digit_ne_rb _ h6⟩
    · exact ⟨by decide, by decide, by decide⟩
    · exact ⟨digit_not_ws _ h7, digit_ne_lb _ h7, digit_ne_rb _ h7⟩
    · exact ⟨digit_not_ws _ h8, digit_ne_lb _ h8, digit_ne_rb _ h8⟩
  have hre : ∀ (y1 y2 y3 y4 m1 m2 d1 d2 : Char),
      shapeSlash [y1, y2, y3, y4, '/', m1, m2, '/', d1, d2] = true →
        reDelim [y1, y2, y3, y4, '/', m1, m2, '/', d1, d2] =
          [y1, y2, y3, y4, '-', m1, m2, '-', d1, d2] := by
    intro y1 y2 y3 y4 m1 m2 d1 d2 h
    simp only [shapeSlash, List.all_cons, List.all_nil, Bool.and_eq_true, and_true] at h
    obtain ⟨h1, h2, h3, h4, h5, h6, h7, h8⟩ := h
    simp [reDelim, digit_ne_slash _ h1, digit_ne_slash _ h2, digit_ne_slash _ h3,
      digit_ne_slash _ h4, digit_ne_slash _ h5, digit_ne_slash _ h6,
      digit_ne_slash _ h7, digit_ne_slash _ h8]
  refine ⟨?_, ?_, ?_, ?_, ?_, ?_, ?_⟩
  · intro year y1 y2 y3 y4 m1 m2 d1 d2 h
    have hclean := cleanDateChars_eq_self _ (plainYMD _ _ _ _ _ _ _ _ h)
    simp [normalize_date, normalizeDateChars, String.toList, hclean, h]
  · intro year y1 y2 y3 y4 m1 m2 d1 d2 h
    have hclean := cleanDateChars_eq_self _ (plainSlash _ _ _ _ _ _ _ _ h)
    simp [normalize_date, normalizeDateChars, String.toList, hclean, h, shapeYMD,
      hre _ _ _ _ _ _ _ _ h]
  · intro year y1 y2 y3 y4 m1 m2 d1 d2 h
    have hclean := cleanDateChars_bracketed _ (plainYMD _ _ _ _ _ _ _ _ h)
    simp only [show ('[' :: ([y1, y2, y3, y4, '-', m1, m2, '-', d1, d2] ++ [']'])) =
        ['[', y1, y2, y3, y4, '-', m1, m2, '-', d1, d2, ']'] by simp] at hclean
    simp [normalize_date, normalizeDateChars, String.toList, hclean, h]
  · intro year y1 y2 y3 y4 m1 m2 d1 d2 h
    have hclean := cleanDateChars_bracketed _ (plainSlash _ _ _ _ _ _ _ _ h)
    simp only [show ('[' :: ([y1, y2, y3, y4, '/', m1, m2, '/', d1, d2] ++ [']'])) =
        ['[', y1, y2, y3, y4, '/', m1, m2, '/', d1, d2, ']'] by simp] at hclean
    simp [normalize_date, normalizeDateChars, String.toList, hclean, h, shapeYMD,
      hre _ _ _ _ _ _ _ _ h]
  · intro year m1 m2 d1 d2 h
    have hplain : ∀ c ∈ ([m1, m2, '-', d1, d2] : List Char),
        c.isWhitespace = false ∧ c ≠ '[' ∧ c ≠ ']' := by
      intro c hc
      simp only [shapeMMDD, List.all_cons, List.all_nil, Bool.and_eq_true, and_true] at h
      obtain ⟨h1, h2, h3, h4⟩ := h
      simp only [List.mem_cons, List.not_mem_nil, or_false] at hc
      rcases hc with rfl | rfl | rfl | rfl | rfl
      · exact ⟨digit_not_ws _ h1, digit_ne_lb _ h1, digit_ne_rb _ h1⟩
      · exact ⟨digit_not_ws _ h2, digit_ne_lb _ h2, digit_ne_rb _ h2⟩
      · exact ⟨by decide, by decide, by decide⟩
      · exact ⟨digit_not_ws _ h3, digit_ne_lb _ h3, digit_ne_rb _ h3⟩
      · exact ⟨digit_not_ws _ h4, digit_ne_lb _ h4, digit_ne_rb _ h4⟩
    have hclean := cleanDateChars_eq_self _ hplain
    simp [normalize_date, normalizeDateChars, String.toList, hclean, h, shapeYMD,
      shapeSlash]
  · intro year l h
    simp [normalize_date, normalizeDateChars, String.toList, h]
  · intro year l h1 h2 h3
    by_cases hs : cleanDateChars l = []
    · simp [normalize_date, normalizeDateChars, String.toList, hs]
    · simp [normalize_date, normalizeDateChars, String.toList, hs, h1, h2, h3]

/-- Witness for `normalize_date_shapes`: the five supported shapes and a
whitespace-only input, on concrete strings. -/
theorem normalize_date_shapes_witness :
    shapeYMD ['2', '0', '2', '4', '-', '0', '1', '-', '0', '2'] = true ∧
      normalize_date (String.mk ['2', '0', '2', '4', '-', '0', '1', '-', '0', '2']) 2025 =
        some (String.mk ['2', '0', '2', '4', '-', '0', '1', '-', '0', '2']) ∧
      normalize_date (String.mk ['2', '0', '2', '4', '/', '0', '1', '/', '0', '2']) 2025 =
        some (String.mk ['2', '0', '2', '4', '-', '0', '1', '-', '0', '2']) ∧
      normalize_date
          (String.mk ['[', '2', '0', '2', '4', '-', '0', '1', '-', '0', '2', ']']) 2025 =
        some (String.mk ['2', '0', '2', '4', '-', '0', '1', '-', '0', '2']) ∧
      normalize_date (String.mk ['0', '1', '-', '0', '2']) 2025 =
        some (String.mk ((padNum 4 2025).toList ++ ['-', '0', '1', '-', '0', '2'])) ∧
      normalize_date (String.mk [' ']) 2025 = none :=
  ⟨by decide,
    normalize_date_shapes.1 2025 '2' '0' '2' '4' '0' '1' '0' '2' (by decide),
    normalize_date_shapes.2.1 2025 '2' '0' '2' '4' '0' '1' '0' '2' (by decide),
    normalize_date_shapes.2.2.1 2025 '2' '0' '2' '4' '0' '1' '0' '2' (by decide),
    normalize_date_shapes.2.2.2.2.1 2025 '0' '1' '0' '2' (by decide),
    normalize_date_shapes.2.2.2.2.2.1 2025 [' '] (by decide)⟩

/-! ## Ingest-loop lemmas -/

theorem stepItem_inv (cfg : RunConfig) (env : RunEnv) (orc : ItemOracle) (item : RawItem)
    (st : LoopState) (h : st.totalNew + st.totalDuplicate = st.totalProcessed) :
    (stateOf (stepItem cfg env orc item st)).totalNew +
        (stateOf (stepItem cfg env orc item st)).totalDuplicate =
      (stateOf (stepItem cfg env orc item st)).totalProcessed := by
  unfold stepItem failItem
  repeat' split
  all_goals simp [stateOf]
  all_goals omega

theorem stepItem_safe (cfg : RunConfig) (env : RunEnv) (orc : ItemOracle) (item : RawItem)
    (st : LoopState) (hsafe : OracleSafe orc) :
    ∃ st1, stepItem cfg env orc item st = Except.ok st1 := by
  obtain ⟨⟨b1, hb1⟩, ⟨b2, hb2⟩, hb3⟩ := hsafe
  unfold stepItem failItem
  simp only [hb1, hb2, hb3]
  repeat' split
  all_goals first
    | exact ⟨_, rfl⟩
    | simp_all

theorem ingestLoop_inv (cfg : RunConfig) (env : RunEnv) :
    ∀ (items : List RawItem) (idx : Nat) (st : LoopState),
      st.totalNew + st.totalDuplicate = st.totalProcessed →
        (stateOf (ingestLoop cfg env items idx st)).totalNew +
            (stateOf (ingestLoop cfg env items idx st)).totalDuplicate =
          (stateOf (ingestLoop cfg env items idx st)).totalProcessed := by
  intro items
  induction items with
  | nil => intro idx st h; simpa [ingestLoop, stateOf] using h
  | cons item rest ih =>
    intro idx st h
    simp only [ingestLoop]
    split
    all_goals first
      | simpa [stateOf] using h
      | cases hstep : stepItem cfg env (env.oracles idx) item st with
        | error st1 =>
          have h1 := stepItem_inv cfg env (env.oracles idx) item st h
          rw [hstep] at h1
          simpa [stateOf] using h1
        | ok st1 =>
          have h1 := stepItem_inv cfg env (env.oracles idx) item st h
          rw [hstep] at h1
          simp only [stateOf] at h1
          simpa using ih (idx + 1) st1 h1

theorem ingestLoop_inv2 (cfg : RunConfig) (env : RunEnv) (items : List RawItem)
    (idx : Nat) (st : LoopState) (res : Except LoopState LoopState)
    (h0 : st.totalNew + st.totalDuplicate = st.totalProcessed)
    (heq : ingestLoop cfg env items idx st = res) :
    (stateOf res).totalNew + (stateOf res).totalDuplicate = (stateOf res).totalProcessed :=
  heq ▸ ingestLoop_inv cfg env items idx st h0

theorem ingestLoop_safe (cfg : RunConfig) (env : RunEnv)
    (hsafe : ∀ i, OracleSafe (env.oracles i)) :
    ∀ (items : List RawItem) (idx : Nat) (st : LoopState),
      ∃ st1, ingestLoop cfg env items idx st = Except.ok st1 := by
  intro items
  induction items with
  | nil => intro idx st; exact ⟨st, rfl⟩
  | cons item rest ih =>
    intro idx st
    simp only [ingestLoop]
    split
    · exact ⟨st, rfl⟩
    · obtain ⟨st1, hst1⟩ := stepItem_safe cfg env (env.oracles idx) item st (hsafe idx)
      rw [hst1]
      exact ih (idx + 1) st1

theorem run_once_shape (cfg : RunConfig) (env : RunEnv) :
    ∃ s st, run_once cfg env = finalizeRun s st ∧
      st.totalNew + st.totalDuplicate = st.totalProcessed := by
  simp only [run_once]
  repeat' split
  all_goals
    first
      | exact ⟨_, _, rfl, by decide⟩
      | (rename_i st heq
         exact ⟨_, st, rfl, by
           simpa [stateOf] using
             ingestLoop_inv2 cfg env _ 0 zeroState _ (by decide) heq⟩)

/-- **C1** — every exit of `run_once` (initial-fetch failure, empty-crawl
short-circuit, COMPLETED, and FAILED with the counters at the moment of
the escape) finalizes with the same status and counters in the Run row
and in the report, and those counters satisfy
`total_new + total_duplicate = total_processed`. -/
theorem run_counters_invariant (cfg : RunConfig) (env : RunEnv) :
    (run_once cfg env).report = (run_once cfg env).finish ∧
      (run_once cfg env).finish.totalNew + (run_once cfg env).finish.totalDuplicate =
        (run_once cfg env).finish.totalProcessed ∧
      (run_once cfg env).report.totalNew + (run_once cfg env).report.totalDuplicate =
        (run_once cfg env).report.totalProcessed := by
  obtain ⟨s, st, hshape, hinv⟩ := run_once_shape cfg env
  rw [hshape]
  exact ⟨rfl, hinv, hinv⟩

/-- **C5** — an exception in one candidate's detail stage (detail fetch
/ extraction, or summarization) is contained: the iteration records a
per-item error, writes the row as FAILED with empty content and the
sentinel summary, keeps the item counted as new and processed, and
returns `.ok` so the loop continues; and a run whose abort-capable store
calls never raise finishes with status COMPLETED. -/
theorem item_failure_contained :
    (∀ (cfg : RunConfig) (env : RunEnv) (orc : ItemOracle) (item : RawItem) (st : LoopState),
        orc.isDup = Except.ok false → cfg.dryRun = false →
          orc.insertOk = Except.ok true → cfg.useTestFixtures = false →
          orc.fetchExtract = Except.error () → orc.failedUpdateOk = Except.ok () →
          stepItem cfg env orc item st = Except.ok
            { totalProcessed := st.totalProcessed + 1
              totalNew := st.totalNew + 1
              totalDuplicate := st.totalDuplicate
              itemErrors := st.itemErrors ++ ["item_failed: " ++ item.1]
              trace := st.trace ++
                [DbOp.insertBase item.1
                    (if item.2.1.startsWith "http" then item.2.1 else env.resolveLink item.2.1)
                    item.2.2 "NEW",
                  DbOp.updateDetail item.1 "" sentinelSummary "FAILED"] }) ∧
      (∀ (cfg : RunConfig) (env : RunEnv) (orc : ItemOracle) (item : RawItem)
          (st : LoopState) (content : String),
        orc.isDup = Except.ok false → cfg.dryRun = false →
          orc.insertOk = Except.ok true → cfg.useTestFixtures = false →
          cfg.aiDisabled = false → orc.fetchExtract = Except.ok content → content ≠ "" →
          orc.aiOutcome = Except.error () → orc.failedUpdateOk = Except.ok () →
          stepItem cfg env orc item st = Except.ok
            { totalProcessed := st.totalProcessed + 1
              totalNew := st.totalNew + 1
              totalDuplicate := st.totalDuplicate
              itemErrors := st.itemErrors ++ ["item_failed: " ++ item.1]
              trace := st.trace ++
                [DbOp.insertBase item.1
                    (if item.2.1.startsWith "http" then item.2.1 else env.resolveLink item.2.1)
                    item.2.2 "NEW",
                  DbOp.updateDetail item.1 "" sentinelSummary "FAILED"] }) ∧
      ∀ (cfg : RunConfig) (env : RunEnv), cfg.useTestFixtures = false →
        (∃ p, env.site cfg.crawl.listUrl = some p) →
        (∀ i, OracleSafe (env.oracles i)) →
        (run_once cfg env).report.status = "COMPLETED" := by
  refine ⟨?_, ?_, ?_⟩
  · intro cfg env orc item st h1 h2 h3 h4 h5 h6
    simp [stepItem, failItem, h1, h2, h3, h4, h5, h6]
  · intro cfg env orc item st content h1 h2 h3 h4 h5 h6 h7 h8 h9
    simp [stepItem, failItem, h1, h2, h3, h4, h5, h6, h7, h8, h9]
  · intro cfg env hfix hsite hsafe
    obtain ⟨p, hp⟩ := hsite
    simp only [run_once, collect_list_items, hp, hfix, Bool.false_eq_true, if_false,
      Bool.false_and]
    split
    · rfl
    · split
      · rename_i st heq
        obtain ⟨st1, h1⟩ := ingestLoop_safe cfg env hsafe _ 0 zeroState
        rw [h1] at heq
        exact absurd heq (by simp)
      · rfl

/-- Witness for `item_failure_contained`: a concrete one-item run whose
detail fetch raises — the step writes the FAILED row and the run
completes. -/
theorem item_failure_contained_witness :
    stepItem
        { dryRun := false, aiDisabled := false, useTestFixtures := false,
          feishuConfigured := false, feishuPerItem := false, daysLookback := 2,
          maxItemsPerRun := 50, keywordLang := fun s => s = "ab",
          crawl := { listUrl := "s", maxPagesTotal := 5, maxPagesPerCategory := 5 } }
        { site := fun u =>
            if u = "s" then
              some { legacyItems := [("ab", "http://x/a", "2025-03-10")],
                     noticeItems := [], zcptItems := [], categoryLinks := [],
                     anchorNext := none, zcptNext := none }
            else none,
          fuel := 5, fixtureItems := [], fixtureDetailContent := "",
          recentToday := ⟨2025, 3, 10⟩,
          oracles := fun _ =>
            { isDup := Except.ok false, insertOk := Except.ok true,
              fetchExtract := Except.error (), aiOutcome := Except.ok "sum",
              processedUpdateOk := Except.ok (), feishuOk := true,
              failedUpdateOk := Except.ok () },
          fallbackSummary := fun t _ => t, resolveLink := fun l => l }
        { isDup := Except.ok false, insertOk := Except.ok true,
          fetchExtract := Except.error (), aiOutcome := Except.ok "sum",
          processedUpdateOk := Except.ok (), feishuOk := true,
          failedUpdateOk := Except.ok () }
        ("ab", "http://x/a", "2025-03-10") zeroState = Except.ok
          { totalProcessed := 1, totalNew := 1, totalDuplicate := 0,
            itemErrors := ["item_failed: ab"],
            trace := [DbOp.insertBase "ab" "http://x/a" "2025-03-10" "NEW",
                      DbOp.updateDetail "ab" "" sentinelSummary "FAILED"] } ∧
      (run_once
          { dryRun := false, aiDisabled := false, useTestFixtures := false,
            feishuConfigured := false, feishuPerItem := false, daysLookback := 2,
            maxItemsPerRun := 50, keywordLang := fun s => s = "ab",
            crawl := { listUrl := "s", maxPagesTotal := 5, maxPagesPerCategory := 5 } }
          { site := fun u =>
              if u = "s" then
                some { legacyItems := [("ab", "http://x/a", "2025-03-10")],
                       noticeItems := [], zcptItems := [], categoryLinks := [],
                       anchorNext := none, zcptNext := none }
              else none,
            fuel := 5, fixtureItems := [], fixtureDetailContent := "",
            recentToday := ⟨2025, 3, 10⟩,
            oracles := fun _ =>
              { isDup := Except.ok false, insertOk := Except.ok true,
                fetchExtract := Except.error (), aiOutcome := Except.ok "sum",
                processedUpdateOk := Except.ok (), feishuOk := true,
                failedUpdateOk := Except.ok () },
            fallbackSummary := fun t _ => t, resolveLink := fun l => l }).report.status =
        "COMPLETED" := by
  constructor
  · have h := item_failure_contained.1
      { dryRun := false, aiDisabled := false, useTestFixtures := false,
        feishuConfigured := false, feishuPerItem := false, daysLookback := 2,
        maxItemsPerRun := 50, keywordLang := fun s => s = "ab",
        crawl := { listUrl := "s", maxPagesTotal := 5, maxPagesPerCategory := 5 } }
      { site := fun u =>
          if u = "s" then
            some { legacyItems := [("ab", "http://x/a", "2025-03-10")],
                   noticeItems := [], zcptItems := [], categoryLinks := [],
                   anchorNext := none, zcptNext := none }
          else none,
        fuel := 5, fixtureItems := [], fixtureDetailContent := "",
        recentToday := ⟨2025, 3, 10⟩,
        oracles := fun _ =>
          { isDup := Except.ok false, insertOk := Except.ok true,
            fetchExtract := Except.error (), aiOutcome := Except.ok "sum",
            processedUpdateOk := Except.ok (), feishuOk := true,
            failedUpdateOk := Except.ok () },
        fallbackSummary := fun t _ => t, resolveLink := fun l => l }
      { isDup := Except.ok false, insertOk := Except.ok true,
        fetchExtract := Except.error (), aiOutcome := Except.ok "sum",
        processedUpdateOk := Except.ok (), feishuOk := true,
        failedUpdateOk := Except.ok () }
      ("ab", "http://x/a", "2025-03-10") zeroState rfl rfl rfl rfl rfl rfl
    simpa using h
  · exact item_failure_contained.2.2 _ _ rfl ⟨_, rfl⟩
      fun i => ⟨⟨false, rfl⟩, ⟨true, rfl⟩, rfl⟩

/-- **C6** — a candidate classified new whose stub insert is rejected is
retroactively downgraded: the step returns `.ok` with the new-count net
unchanged, the duplicate count and processed count incremented, and no
detail-stage store write; a candidate found duplicate up-front just
counts as duplicate; and for a new-classified candidate the step leaves
`total_new` net unchanged exactly when the run is not dry and the insert
was rejected (the only downgrade site) — otherwise it nets +1. -/
theorem race_downgrade_only :
    (∀ (cfg : RunConfig) (env : RunEnv) (orc : ItemOracle) (item : RawItem) (st : LoopState),
        orc.isDup = Except.ok false → cfg.dryRun = false →
          orc.insertOk = Except.ok false →
          stepItem cfg env orc item st = Except.ok
            { totalProcessed := st.totalProcessed + 1
              totalNew := st.totalNew
              totalDuplicate := st.totalDuplicate + 1
              itemErrors := st.itemErrors
              trace := st.trace }) ∧
      (∀ (cfg : RunConfig) (env : RunEnv) (orc : ItemOracle) (item : RawItem)
          (st : LoopState),
        orc.isDup = Except.ok true →
          stepItem cfg env orc item st = Except.ok
            { st with
                totalDuplicate := st.totalDuplicate + 1
                totalProcessed := st.totalProcessed + 1 }) ∧
      (∀ (cfg : RunConfig) (env : RunEnv) (orc : ItemOracle) (item : RawItem)
          (st : LoopState),
        orc.isDup = Except.ok false →
          ((stateOf (stepItem cfg env orc item st)).totalNew = st.totalNew ↔
            cfg.dryRun = false ∧ orc.insertOk = Except.ok false)) ∧
      ∀ (cfg : RunConfig) (env : RunEnv) (orc : ItemOracle) (item : RawItem)
          (st : LoopState),
        orc.isDup = Except.ok false →
          (stateOf (stepItem cfg env orc item st)).totalNew = st.totalNew ∨
            (stateOf (stepItem cfg env orc item st)).totalNew = st.totalNew + 1 := by
  refine ⟨?_, ?_, ?_, ?_⟩
  · intro cfg env orc item st h1 h2 h3
    simp [stepItem, h1, h2, h3]
  · intro cfg env orc item st h1
    simp [stepItem, h1]
  · intro cfg env orc item st h1
    unfold stepItem failItem
    simp only [h1]
    repeat' split
    all_goals simp_all [stateOf]
  · intro cfg env orc item st h1
    unfold stepItem failItem
    simp only [h1]
    repeat' split
    all_goals simp_all [stateOf]

/-- Witness for `race_downgrade_only`: a concrete insert-rejected step
nets a duplicate instead of a new item. -/
theorem race_downgrade_only_witness :
    stepItem
        { dryRun := false, aiDisabled := false, useTestFixtures := false,
          feishuConfigured := false, feishuPerItem := false, daysLookback := 2,
          maxItemsPerRun := 50, keywordLang := fun s => s = "ab",
          crawl := { listUrl := "s", maxPagesTotal := 5, maxPagesPerCategory := 5 } }
        { site := fun _ => none, fuel := 1, fixtureItems := [],
          fixtureDetailContent := "", recentToday := ⟨2025, 3, 10⟩,
          oracles := fun _ =>
            { isDup := Except.ok false, insertOk := Except.ok false,
              fetchExtract := Except.ok "c", aiOutcome := Except.ok "s",
              processedUpdateOk := Except.ok (), feishuOk := true,
              failedUpdateOk := Except.ok () },
          fallbackSummary := fun t _ => t, resolveLink := fun l => l }
        { isDup := Except.ok false, insertOk := Except.ok false,
          fetchExtract := Except.ok "c", aiOutcome := Except.ok "s",
          processedUpdateOk := Except.ok (), feishuOk := true,
          failedUpdateOk := Except.ok () }
        ("ab", "http://x/a", "2025-03-10") zeroState = Except.ok
          { totalProcessed := 1, totalNew := 0, totalDuplicate := 1,
            itemErrors := [], trace := [] } := by
  have h := race_downgrade_only.1
    { dryRun := false, aiDisabled := false, useTestFixtures := false,
      feishuConfigured := false, feishuPerItem := false, daysLookback := 2,
      maxItemsPerRun := 50, keywordLang := fun s => s = "ab",
      crawl := { listUrl := "s", maxPagesTotal := 5, maxPagesPerCategory := 5 } }
    { site := fun _ => none, fuel := 1, fixtureItems := [],
      fixtureDetailContent := "", recentToday := ⟨2025, 3, 10⟩,
      oracles := fun _ =>
        { isDup := Except.ok false, insertOk := Except.ok false,
          fetchExtract := Except.ok "c", aiOutcome := Except.ok "s",
          processedUpdateOk := Except.ok (), feishuOk := true,
          failedUpdateOk := Except.ok () },
      fallbackSummary := fun t _ => t, resolveLink := fun l => l }
    { isDup := Except.ok false, insertOk := Except.ok false,
      fetchExtract := Except.ok "c", aiOutcome := Except.ok "s",
      processedUpdateOk := Except.ok (), feishuOk := true,
      failedUpdateOk := Except.ok () }
    ("ab", "http://x/a", "2025-03-10") zeroState rfl rfl rfl
  simpa using h

end LocalScraper
